import Mathlib

/-
  Verification of the VoiceScrambler repository (VoiceScrambler.py,
  ScramblerHelper.py) against its natural-language specification.

  Shallow embedding conventions:
  * audio samples are rationals (the scripts use float64; no claim settled
    here depends on rounding, only on exact dataflow);
  * the sample rate `Fs` read by `wavfile.read` is an integer;
  * a Python exception is modelled by `Option`/an explicit failure value;
  * `scipy.signal.cheby1` is modelled as a constructor that records its
    design parameters (order, ripple, cutoffs, sample rate): no claim
    settled here depends on the filter coefficients themselves;
  * `scipy.signal.sosfilt`, `np.sin` and `np.pi` are numeric primitives
    whose values no settled claim depends on; they are gathered in a `Dsp`
    record that every pipeline definition takes as its first argument.
    `sosfilt` (called with zero initial state) maps a buffer to a buffer of
    the same length, which is the only fact about it that any proof uses.
-/

namespace VoiceScrambler

/-- One `cheby1` filter design, as passed to `sosfilt`: the constructor
records exactly the arguments of the `sg.cheby1` call in the source
(`getfilts` builds 5th-order 4 dB band-pass filters, `lpfilter` builds
5th-order 4 dB low-pass filters). Band-pass cutoffs are the integers
`(s, up - 1)` computed in `getfilts`; low-pass cutoffs are entries of the
integer `standard_carriers` table. A design is only produced when scipy's
critical-frequency validation passes (see `cheby1_bandpass` and
`cheby1_lowpass`). -/
inductive FilterSpec where
  | bandpass (order : ℕ) (ripple : ℚ) (lo hi : ℤ) (fs : ℤ)
  | lowpass (order : ℕ) (ripple : ℚ) (cutoff : ℤ) (fs : ℤ)
  deriving DecidableEq, Repr

/-- `sg.cheby1(order, ripple, (lo, hi), bandpass, output=sos, fs=fs)`:
scipy validates the digital critical frequencies, raising `ValueError`
(`none`) unless `0 < w < fs/2` for each cutoff `w` — in integers,
`0 < w` and `2*w < fs`. -/
def cheby1_bandpass (order : ℕ) (ripple : ℚ) (lo hi : ℤ) (fs : ℤ) :
    Option FilterSpec :=
  if 0 < lo ∧ 2 * lo < fs ∧ 0 < hi ∧ 2 * hi < fs then
    some (FilterSpec.bandpass order ripple lo hi fs)
  else none

/-- `sg.cheby1(order, ripple, cutoff, lowpass, output=sos, fs=fs)`: scipy
raises `ValueError` (`none`) unless `0 < cutoff < fs/2`. -/
def cheby1_lowpass (order : ℕ) (ripple : ℚ) (cutoff : ℤ) (fs : ℤ) :
    Option FilterSpec :=
  if 0 < cutoff ∧ 2 * cutoff < fs then
    some (FilterSpec.lowpass order ripple cutoff fs)
  else none

/-- Lower band-pass cutoff of a filter design (0 for a low-pass). -/
def FilterSpec.locut : FilterSpec → ℤ
  | .bandpass _ _ lo _ _ => lo
  | .lowpass _ _ _ _ => 0

/-- Upper band-pass cutoff of a filter design (0 for a low-pass). -/
def FilterSpec.hicut : FilterSpec → ℤ
  | .bandpass _ _ _ hi _ => hi
  | .lowpass _ _ _ _ => 0

/-- The numeric primitives of the scripts that are left uninterpreted:
`np.sin`, `np.pi`, and `sg.sosfilt` (stateless, zero initial conditions).
`sosfilt_length` is the one fact used about `sosfilt`: filtering preserves
the buffer length. -/
structure Dsp where
  sin : ℚ → ℚ
  pi : ℚ
  sosfilt : FilterSpec → List ℚ → List ℚ
  sosfilt_length : ∀ f x, (sosfilt f x).length = x.length

/-- A concrete instance of the uninterpreted primitives, used to evaluate
the pipeline at concrete inputs (the settled claims hold for every `Dsp`). -/
def dspId : Dsp :=
  { sin := fun _ => 0
    pi := 0
    sosfilt := fun _ x => x
    sosfilt_length := fun _ _ => rfl }

/-- ScramblerHelper.py line 5: the fixed carrier-frequency table. -/
def standard_carriers : List ℤ := [2632, 2718, 2868, 3023, 3196, 3339, 3495, 3729]

/-- Python `int()` on a rational: truncation toward zero
(`Int.tdiv` is truncated division). -/
def pyint (q : ℚ) : ℤ := Int.tdiv q.num (q.den : ℤ)

/-- ScramblerHelper.py `getfilts` loop body, lines 13-17: for iteration `b`
(counting the remaining iterations `r`), call
`cheby1(5, 4, (s, (b+1)*step - 1), bandpass, fs)` — a `ValueError` there
aborts the whole loop — append the design and set `s = (b+1)*step`. -/
def getfiltsGo (step : ℤ) (fs : ℤ) : ℕ → ℤ → ℤ → Option (List FilterSpec)
  | 0, _, _ => some []
  | r + 1, b, s =>
      match cheby1_bandpass 5 4 s ((b + 1) * step - 1) fs with
      | none => none
      | some f =>
          match getfiltsGo step fs r (b + 1) ((b + 1) * step) with
          | none => none
          | some rest => some (f :: rest)

/-- ScramblerHelper.py lines 7-19 (`getfilts`): `step = int((fs / 2) / n)`;
in exact arithmetic `(fs/2)/n = fs/(2n)`, and Python `int()` truncates
toward zero, so `step = Int.tdiv fs (2*n)`. For `n = 0` the expression
`(fs / 2) / n` raises `ZeroDivisionError` (modelled as `none`); the loop
`for b in range(n)` then runs `max n 0` times starting at `b = 0`, `s = 1`,
raising out of `getfilts` if any `cheby1` call rejects its cutoffs. -/
def getfilts (n : ℤ) (fs : ℤ) : Option (List FilterSpec) :=
  if n = 0 then none
  else getfiltsGo (Int.tdiv fs (2 * n)) fs n.toNat 0 1

/-- ScramblerHelper.py lines 51-54 (`lpfilter`): a 5th-order 4 dB low-pass
`cheby1` design at the given cutoff, `ValueError` (`none`) when the cutoff
fails scipy's `0 < cutoff < fs/2` check. -/
def lpfilter (cutoff : ℤ) (fs : ℤ) : Option FilterSpec := cheby1_lowpass 5 4 cutoff fs

/-- ScramblerHelper.py lines 64-66 (`carrier`): `np.sin(f * (2*np.pi) * t)`
evaluated elementwise over the time vector. -/
def carrier (P : Dsp) (f : ℚ) (t : List ℚ) : List ℚ :=
  t.map fun tau => P.sin (f * (2 * P.pi) * tau)

/-- ScramblerHelper.py lines 68-74 (`generate_carriers`): carrier `i` uses
table frequency `standard_carriers[i % 8]`. `range` of a negative count is
empty, hence `toNat`. -/
def generate_carriers (P : Dsp) (num_bands : ℤ) (t : List ℚ) : List (List ℚ) :=
  (List.range num_bands.toNat).map fun i =>
    carrier P ((standard_carriers.getD (i % standard_carriers.length) 0 : ℤ) : ℚ) t

/-- ScramblerHelper.py lines 76-82 (`generate_lpfilters`): low-pass filter
`i` uses table frequency `standard_carriers[i % 8]` as its cutoff; the
first `cheby1` `ValueError` aborts the loop (`none`). -/
def generate_lpfilters (num_bands : ℤ) (fs : ℤ) : Option (List FilterSpec) :=
  (List.range num_bands.toNat).mapM fun i =>
    lpfilter (standard_carriers.getD (i % standard_carriers.length) 0) fs

/-- `np.mean`: sum over length (on the empty buffer NumPy warns and yields
NaN without raising; the Lean value there is `0/0 = 0`, and no settled claim
depends on it since the mean of `[]` is only ever subtracted from `[]`). -/
def npmean (s : List ℚ) : ℚ := s.sum / (s.length : ℚ)

/-- ScramblerHelper.py lines 46-49 (`remove_dc`): subtract the signal mean
from every sample. -/
def remove_dc (signal : List ℚ) : List ℚ := signal.map fun v => v - npmean signal

/-- ScramblerHelper.py lines 56-62 (`invert`): `prefilter` is computed and
then never used (dead code); the returned value is `sosfilt` applied to the
elementwise product `signal * carrier`. -/
def invert (P : Dsp) (signal : List ℚ) (carr : List ℚ) (filt : FilterSpec) : List ℚ :=
  let prefilter := P.sosfilt filt signal
  let inv_signal := List.zipWith (· * ·) signal carr
  P.sosfilt filt inv_signal

/-- ScramblerHelper.py lines 42-44 (`spectrum`): the body is
`np.abs(lb.stft(x, hop_length=hl))`, but the name `lb` is never imported in
ScramblerHelper.py (only `sg`, `np`, `plt` are), so every call raises
`NameError`; modelled as `none`. (The 2-D row structure of the STFT result
is collapsed to one list: no value of this type is ever produced.) -/
def spectrum (x : List ℚ) (hl : ℕ) : Option (List ℚ) := none

/-- ScramblerHelper.py lines 36-38 (`bandspec` comprehension): element `i`
is the row slice `spectrum(x, hl)[i*step : (i+1)*step - 1]`; since
`spectrum` raises, the first element already fails. -/
def bandspecGo (hl step : ℕ) : ℕ → List (List ℚ) → Option (List (List ℚ))
  | _, [] => some []
  | i, x :: rest =>
      match spectrum x hl with
      | none => none
      | some d =>
          match bandspecGo hl step (i + 1) rest with
          | none => none
          | some bs => some (((d.drop (i * step)).take (step - 1)) :: bs)

/-- ScramblerHelper.py lines 32-40 (`bandspec`): `step = int(hl/n)` raises
`ZeroDivisionError` for an empty band list; otherwise the comprehension
calls `spectrum` per band. -/
def bandspec (xs : List (List ℚ)) (hl : ℕ) : Option (List (List ℚ)) :=
  if xs.length = 0 then none
  else bandspecGo hl (hl / xs.length) 0 xs

/-- ScramblerHelper.py lines 87-93 (`bandsplit`): build the filter bank,
band-pass filter the signal per band, then post-process with `bandspec`. -/
def bandsplit (P : Dsp) (signal : List ℚ) (num_bands : ℤ) (fs : ℤ) :
    Option (List (List ℚ)) :=
  match getfilts num_bands fs with
  | none => none
  | some filts => bandspec (filts.map fun f => P.sosfilt f signal) 1024

/-- ScramblerHelper.py lines 95-97 (`shuffle`): `[bands[i] for i in book]`;
an out-of-range index raises `IndexError` (`none`). -/
def shuffle (bands : List (List ℚ)) (book : List ℕ) : Option (List (List ℚ)) :=
  book.mapM fun i => bands.get? i

/-- ScramblerHelper.py lines 99-101 (`bandunsplit`): `np.vstack(bands)`
stacks the band buffers as the rows of one 2-D array (it does not sum
them); as a list of rows the stack is the input list itself. `vstack`
raises for an empty sequence or for rows of unequal length. -/
def bandunsplit (bands : List (List ℚ)) : Option (List (List ℚ)) :=
  match bands with
  | [] => none
  | b :: bs => if bs.all fun x => x.length = b.length then some (b :: bs) else none

/-- Modelled from the spec (section 4.7 Reassembler), for comparison with
the code: reorder `invertedBands` by the permutation and then sum the
reordered bands sample-wise into a single waveform. This definition follows
the words of the spec, not the source. -/
def combine_spec (bands : List (List ℚ)) (book : List ℕ) : Option (List ℚ) :=
  (shuffle bands book).map fun rs =>
    match rs with
    | [] => []
    | r :: rest => rest.foldl (fun acc b => List.zipWith (· + ·) acc b) r

/-- VoiceScrambler.py lines 72-84 (`write_wav_file`): `m = np.max(signal)`
is the (signed) maximum, raising `ValueError` on an empty buffer; the
written buffer is `signal / m` (the float32 cast is not modelled). -/
def npmax : List ℚ → Option ℚ
  | [] => none
  | a :: l => some (l.foldl max a)

/-- VoiceScrambler.py lines 72-84: the buffer actually written (file-name
handling is I/O and not modelled). NumPy division by `m = 0` warns and
completes; no settled claim depends on the junk values it produces. -/
def write_wav_file (signal : List ℚ) : Option (List ℚ) :=
  (npmax signal).map fun m => signal.map fun v => v / m

/-- VoiceScrambler.py lines 86-104 (`determine_rate`), with the two fields
of the `"changes/seconds"` string already parsed to integers: zero in
either field means no scheduled change (returns 0); otherwise
`rate = seconds / num_changes` is rejected (−1) when below `0.5` or at
least the signal duration, and returned as-is otherwise. -/
def determine_rate (num_changes : ℤ) (seconds : ℤ) (duration : ℚ) : ℚ :=
  if num_changes = 0 ∨ seconds = 0 then 0
  else
    let rate : ℚ := (seconds : ℚ) / (num_changes : ℚ)
    if rate < 1 / 2 then -1
    else if duration ≤ rate then -1
    else rate

/-- VoiceScrambler.py lines 106-115 (`determine_num_permutations`). -/
def determine_num_permutations (rate : ℚ) (duration : ℚ) : ℤ :=
  if rate = 0 then 1 else pyint (duration / rate)

/-- VoiceScrambler.py lines 124-131 (`check_bands`): only a negative band
count is rejected. -/
def check_bands (bands : ℤ) : ℤ := if bands < 0 then -1 else 0

/-- VoiceScrambler.py lines 117-121 (`check_mode`). -/
def check_mode (mode : ℤ) : ℤ := if mode < 0 ∨ 2 < mode then -1 else 0

/-- VoiceScrambler.py lines 154-210 and lines 223-243: one pass of the
scrambling pipeline (the descrambling pass, lines 220-243, repeats the
identical computation on the scrambled buffer; `carriers` and `lpfs` are
pure functions of `(bands, t, Fs)` computed once in the source and equal in
both passes). Steps: DC removal; the three mode branches of the
time-segmentation step are all `pass`; band split (`bandsplit` for
`bands > 1`, else the singleton no-split list); the invert loop, indexing
`carriers[i]` and `lpfs[i]` (`IndexError`, i.e. `none`, when `bands` is
smaller than the band-list length, e.g. `bands = 0`); recombination, which
for `bands > 1` is the `pass` placeholder that leaves `speech_scrambled`
unassigned (`NameError`, i.e. `none`) and otherwise takes
`speech_inverted_bands[0]`. A `cheby1` `ValueError` inside
`generate_lpfilters` likewise aborts the pass before anything is written. -/
def scrambler_pass (P : Dsp) (x : List ℚ) (t : List ℚ) (Fs : ℤ) (bands : ℤ) :
    Option (List ℚ) :=
  let speech_dc_removed := remove_dc x
  let split :=
    if 1 < bands then bandsplit P speech_dc_removed bands Fs
    else some [speech_dc_removed]
  match split with
  | none => none
  | some speech_band_split =>
      let carriers := generate_carriers P bands t
      match generate_lpfilters bands Fs with
      | none => none
      | some lpfs =>
          let inverted :=
            (List.range speech_band_split.length).mapM fun i =>
              match speech_band_split.get? i, carriers.get? i, lpfs.get? i with
              | some b, some c, some f => some (invert P b c f)
              | _, _, _ => none
          match inverted with
          | none => none
          | some speech_inverted_bands =>
              if 1 < bands then none
              else speech_inverted_bands.get? 0

/-- VoiceScrambler.py lines 133-251 (`scrambler`): returns the list of
buffers written to wav files, in order, and whether the run completed
without raising. If `mode` is outside `{0,1,2}` the unconditional
`debug_str` format at line 151 reads the never-assigned `mode_string` and
raises `NameError` before anything else happens. Then: scramble pass,
write the scrambled buffer, descramble pass on the (un-normalized)
scrambled buffer, write the descrambled buffer. `filename`, `Ts` and
`debug` only affect I/O and logging. -/
def scrambler (P : Dsp) (mode : ℤ) (Fs : ℤ) (Ts : ℚ) (duration : ℚ)
    (x : List ℚ) (t : List ℚ) (rate : ℚ) (bands : ℤ) (debug : Bool) :
    List (List ℚ) × Bool :=
  if mode < 0 ∨ 2 < mode then ([], false)
  else
    let num_perms := determine_num_permutations rate duration
    match scrambler_pass P x t Fs bands with
    | none => ([], false)
    | some speech_scrambled =>
        match write_wav_file speech_scrambled with
        | none => ([], false)
        | some scrambled_out =>
            match scrambler_pass P speech_scrambled t Fs bands with
            | none => ([scrambled_out], false)
            | some speech_descrambled =>
                match write_wav_file speech_descrambled with
                | none => ([scrambled_out], false)
                | some descrambled_out => ([scrambled_out, descrambled_out], true)

/-- Modelled from the spec (section 8, Band coverage), for comparison with
the code: the filter bank exists, has `n` bands, starts at (or below) 1 Hz,
adjacent bands meet with neither a gap nor an overlap wider than 1 Hz, and
the last band's upper cutoff reaches to within 1 Hz of Nyquist (stated as
`fs - 2*hi ≤ 2`, i.e. `fs/2 - hi ≤ 1`, to stay in integers). This
definition follows the words of the spec, not the source. -/
def spec_band_coverage (n : ℤ) (fs : ℤ) : Bool :=
  match getfilts n fs with
  | none => false
  | some filts =>
      decide (filts.length = n.toNat) &&
      (match filts.head? with
       | none => false
       | some f0 => decide (f0.locut ≤ 1)) &&
      ((filts.zip filts.tail).all fun p =>
        decide (p.2.locut - p.1.hicut ≤ 1) && decide (-1 ≤ p.2.locut - p.1.hicut)) &&
      (match filts.getLast? with
       | none => false
       | some fl => decide (fs - 2 * fl.hicut ≤ 2))

end VoiceScrambler

namespace VoiceScrambler

/-- Helper: every element of `a :: l` is bounded by `l.foldl max a`,
i.e. by `np.max` of the buffer. -/
lemma le_foldl_max : ∀ (l : List ℚ) (a x : ℚ), x = a ∨ x ∈ l → x ≤ l.foldl max a := by
  intro l
  induction l with
  | nil =>
      rintro a x (rfl | hx)
      · exact le_refl x
      · cases hx
  | cons b tl ih =>
      rintro a x (rfl | hx)
      · simp only [List.foldl_cons]
        exact le_trans (le_max_left x b) (ih (max x b) _ (Or.inl rfl))
      · simp only [List.foldl_cons]
        rcases List.mem_cons.mp hx with rfl | hx
        · exact le_trans (le_max_right a x) (ih (max a x) _ (Or.inl rfl))
        · exact ih (max a b) x (Or.inr hx)

/-- Helper: `write_wav_file` succeeds on every non-empty buffer. -/
lemma write_wav_file_of_ne_nil (s : List ℚ) (h : s ≠ []) :
    ∃ out, write_wav_file s = some out := by
  cases s with
  | nil => exact absurd rfl h
  | cons a l => exact ⟨(a :: l).map fun v => v / (l.foldl max a), rfl⟩

/-- Helper: when every band of the remaining loop passes the `cheby1`
critical-frequency validation, `getfiltsGo` succeeds and entry `j`
(absolute iteration `b + j`, running lower edge `s` at entry) is the
band-pass design on `(s or (b+j)*step, (b+j+1)*step - 1)`. -/
lemma getfiltsGo_some (step fs : ℤ) :
    ∀ (r : ℕ) (b s : ℤ),
      (∀ j : ℕ, j < r →
        0 < (if j = 0 then s else (b + (j : ℤ)) * step) ∧
        2 * (if j = 0 then s else (b + (j : ℤ)) * step) < fs ∧
        0 < (b + (j : ℤ) + 1) * step - 1 ∧
        2 * ((b + (j : ℤ) + 1) * step - 1) < fs) →
      ∃ L, getfiltsGo step fs r b s = some L ∧ L.length = r ∧
        (∀ j : ℕ, j < r →
          L.get? j = some (FilterSpec.bandpass 5 4
            (if j = 0 then s else (b + (j : ℤ)) * step)
            ((b + (j : ℤ) + 1) * step - 1) fs)) := by
  intro r
  induction r with
  | zero =>
      intro b s _
      exact ⟨[], rfl, rfl, fun j hj => absurd hj (Nat.not_lt_zero j)⟩
  | succ m ih =>
      intro b s hval
      have h0 := hval 0 (Nat.succ_pos m)
      have e0a : (if (0 : ℕ) = 0 then s else (b + ((0 : ℕ) : ℤ)) * step) = s := if_pos rfl
      have e0b : (b + ((0 : ℕ) : ℤ) + 1) = b + 1 := by push_cast; ring
      rw [e0a, e0b] at h0
      have htail : ∀ j : ℕ, j < m →
          0 < (if j = 0 then (b + 1) * step else ((b + 1) + (j : ℤ)) * step) ∧
          2 * (if j = 0 then (b + 1) * step else ((b + 1) + (j : ℤ)) * step) < fs ∧
          0 < ((b + 1) + (j : ℤ) + 1) * step - 1 ∧
          2 * (((b + 1) + (j : ℤ) + 1) * step - 1) < fs := by
        intro j hj
        have hh := hval (j + 1) (Nat.succ_lt_succ hj)
        have e1 : (if (j + 1 : ℕ) = 0 then s else (b + ((j + 1 : ℕ) : ℤ)) * step)
            = (if j = 0 then (b + 1) * step else ((b + 1) + (j : ℤ)) * step) := by
          by_cases hj0 : j = 0
          · subst hj0; norm_num
          · rw [if_neg (Nat.succ_ne_zero j), if_neg hj0]
            push_cast
            ring
        have e2 : (b + ((j + 1 : ℕ) : ℤ) + 1) = ((b + 1) + (j : ℤ) + 1) := by
          push_cast
          ring
        rw [e1, e2] at hh
        exact hh
      obtain ⟨L, hL, hlen, hget⟩ := ih (b + 1) ((b + 1) * step) htail
      have hc : cheby1_bandpass 5 4 s ((b + 1) * step - 1) fs
          = some (FilterSpec.bandpass 5 4 s ((b + 1) * step - 1) fs) := by
        unfold cheby1_bandpass
        rw [if_pos]
        exact ⟨h0.1, h0.2.1, h0.2.2.1, h0.2.2.2⟩
      refine ⟨FilterSpec.bandpass 5 4 s ((b + 1) * step - 1) fs :: L, ?_, ?_, ?_⟩
      · simp only [getfiltsGo, hc, hL]
      · simp [hlen]
      · intro j hj
        cases j with
        | zero => simp
        | succ k =>
            have hk : k < m := Nat.succ_lt_succ_iff.mp hj
            rw [List.get?_cons_succ, hget k hk]
            have e1 : (if k = 0 then (b + 1) * step else ((b + 1) + (k : ℤ)) * step)
                = (if (k + 1 : ℕ) = 0 then s else (b + ((k + 1 : ℕ) : ℤ)) * step) := by
              by_cases hk0 : k = 0
              · subst hk0; norm_num
              · rw [if_neg hk0, if_neg (Nat.succ_ne_zero k)]
                push_cast
                ring
            have e2 : ((b + 1) + (k : ℤ) + 1) = (b + ((k + 1 : ℕ) : ℤ) + 1) := by
              push_cast
              ring
            rw [e1, e2]

/-- Helper: `bandspec` always raises: for an empty band list the step
computation divides by zero, otherwise the first `spectrum` call hits the
undefined name `lb`. -/
lemma bandspec_none (xs : List (List ℚ)) (hl : ℕ) : bandspec xs hl = none := by
  cases xs with
  | nil => rfl
  | cons a l => rfl

/-- Helper: `bandsplit` always raises, because `bandspec` does. -/
lemma bandsplit_none (P : Dsp) (s : List ℚ) (n : ℤ) (fs : ℤ) :
    bandsplit P s n fs = none := by
  unfold bandsplit
  rcases getfilts n fs with _ | filts
  · rfl
  · exact bandspec_none _ _

/-- Helper: `invert` preserves min-length (elementwise product then a
length-preserving filter). -/
lemma invert_length (P : Dsp) (s c : List ℚ) (f : FilterSpec) :
    (invert P s c f).length = min s.length c.length := by
  have h : invert P s c f = P.sosfilt f (List.zipWith (· * ·) s c) := rfl
  rw [h, P.sosfilt_length, List.length_zipWith]

/-- Helper: DC removal preserves length. -/
lemma remove_dc_length (s : List ℚ) : (remove_dc s).length = s.length :=
  List.length_map _ _

/-- Helper: a carrier waveform has the length of the time vector. -/
lemma carrier_length (P : Dsp) (f : ℚ) (t : List ℚ) :
    (carrier P f t).length = t.length :=
  List.length_map _ _

/-- Helper: for band count 1 the single low-pass design at cutoff 2632
succeeds exactly when scipy accepts the cutoff, i.e. when `2632 < Fs/2`. -/
lemma generate_lpfilters_one (Fs : ℤ) (hFs : 2 * 2632 < Fs) :
    generate_lpfilters 1 Fs = some [FilterSpec.lowpass 5 4 2632 Fs] := by
  have h0 : lpfilter 2632 Fs = some (FilterSpec.lowpass 5 4 2632 Fs) := by
    unfold lpfilter cheby1_lowpass
    rw [if_pos]
    exact ⟨by decide, hFs⟩
  have h3 : generate_lpfilters 1 Fs
      = (lpfilter 2632 Fs).bind fun f => some [f] := rfl
  rw [h3, h0]
  rfl

/-- Helper: for band count 1 and a sample rate accepted by the low-pass
design, a pass of the pipeline takes the no-split branch and returns the
single band carrier-inverted once. -/
lemma scrambler_pass_one (P : Dsp) (y t : List ℚ) (Fs : ℤ) (hFs : 2 * 2632 < Fs) :
    scrambler_pass P y t Fs 1 =
      some (invert P (remove_dc y) (carrier P ((2632 : ℤ) : ℚ) t)
        (FilterSpec.lowpass 5 4 2632 Fs)) := by
  have hl := generate_lpfilters_one Fs hFs
  have h3 : scrambler_pass P y t Fs 1 =
      (match generate_lpfilters 1 Fs with
       | none => none
       | some lpfs =>
           match (List.range 1).mapM (fun i =>
             match [remove_dc y].get? i, (generate_carriers P 1 t).get? i, lpfs.get? i with
             | some b, some c, some f => some (invert P b c f)
             | _, _, _ => none) with
           | none => none
           | some speech_inverted_bands => speech_inverted_bands.get? 0) := rfl
  rw [h3, hl]
  rfl

/-- Helper: for a mode in `{0,1,2}` the scrambler is the two-pass
write pipeline. -/
lemma scrambler_eq (P : Dsp) (mode : ℤ) (Fs : ℤ) (Ts dur : ℚ) (x t : List ℚ)
    (rate : ℚ) (bands : ℤ) (debug : Bool) (hm : ¬(mode < 0 ∨ 2 < mode)) :
    scrambler P mode Fs Ts dur x t rate bands debug =
      (match scrambler_pass P x t Fs bands with
       | none => ([], false)
       | some speech_scrambled =>
           match write_wav_file speech_scrambled with
           | none => ([], false)
           | some scrambled_out =>
               match scrambler_pass P speech_scrambled t Fs bands with
               | none => ([scrambled_out], false)
               | some speech_descrambled =>
                   match write_wav_file speech_descrambled with
                   | none => ([scrambled_out], false)
                   | some descrambled_out => ([scrambled_out, descrambled_out], true)) := by
  unfold scrambler
  rw [if_neg hm]

/-- Claim C7: `invert(signal, carrier, filt)` returns exactly the low-pass
filter applied to the sample-wise product of signal and carrier; the
`prefilter` binding in its body is dead code and nothing else affects the
returned value (the equation holds for every interpretation of `sosfilt`). -/
theorem invert_is_filtered_product (P : Dsp) (s c : List ℚ) (f : FilterSpec) :
    invert P s c f = P.sosfilt f (List.zipWith (· * ·) s c) := rfl

/-- Claim C6: with both rate fields positive and a positive duration,
`determine_rate` returns −1 exactly when seconds-per-change `s/c` is below
1/2 or at least the duration, and returns `s/c` otherwise; a zero in either
field returns 0 (no scheduled change). -/
theorem determine_rate_spec (c s : ℤ) (d : ℚ) :
    (c = 0 ∨ s = 0 → determine_rate c s d = 0) ∧
    (0 < c → 0 < s → 0 < d →
      ((determine_rate c s d = -1 ↔
          ((s : ℚ) / (c : ℚ) < 1 / 2 ∨ d ≤ (s : ℚ) / (c : ℚ))) ∧
        (¬((s : ℚ) / (c : ℚ) < 1 / 2 ∨ d ≤ (s : ℚ) / (c : ℚ)) →
          determine_rate c s d = (s : ℚ) / (c : ℚ)))) := by
  have e : determine_rate c s d =
      (if c = 0 ∨ s = 0 then 0
       else if (s : ℚ) / (c : ℚ) < 1 / 2 then -1
       else if d ≤ (s : ℚ) / (c : ℚ) then -1
       else (s : ℚ) / (c : ℚ)) := rfl
  constructor
  · intro h; rw [e, if_pos h]
  · intro hc hs hd
    have hcz : ¬(c = 0 ∨ s = 0) := by push_neg; exact ⟨by omega, by omega⟩
    have hrpos : 0 < (s : ℚ) / (c : ℚ) := by
      apply div_pos <;> exact_mod_cast by omega
    rw [e, if_neg hcz]
    by_cases h1 : (s : ℚ) / (c : ℚ) < 1 / 2
    · rw [if_pos h1]
      exact ⟨⟨fun _ => Or.inl h1, fun _ => rfl⟩, fun hn => absurd (Or.inl h1) hn⟩
    · rw [if_neg h1]
      by_cases h2 : d ≤ (s : ℚ) / (c : ℚ)
      · rw [if_pos h2]
        exact ⟨⟨fun _ => Or.inr h2, fun _ => rfl⟩, fun hn => absurd (Or.inr h2) hn⟩
      · rw [if_neg h2]
        constructor
        · constructor
          · intro habs; exfalso; rw [habs] at hrpos; linarith
          · rintro (h | h); exacts [absurd h h1, absurd h h2]
        · intro _; rfl

/-- Witness for C6 at concrete inputs `0/5` (zero field) and `20/1`
(seconds-per-change 20) with duration 10. -/
theorem determine_rate_spec_witness :
    determine_rate 0 5 10 = 0 ∧
    (determine_rate 1 20 10 = -1 ↔
      (((20 : ℤ) : ℚ) / ((1 : ℤ) : ℚ) < 1 / 2 ∨
        (10 : ℚ) ≤ ((20 : ℤ) : ℚ) / ((1 : ℤ) : ℚ))) :=
  ⟨(determine_rate_spec 0 5 10).1 (Or.inl rfl),
   (((determine_rate_spec 1 20 10).2 (by decide) (by decide) (by norm_num))).1⟩

/-- Claim C4 counterexample: `write_wav_file` divides by `np.max`, the
signed maximum, not the maximum absolute value: on the buffer `[-2, 1]` the
maximum is 1, the written buffer is `[-2, 1]` unchanged, and the sample −2
lies outside `[-1, 1]`. -/
theorem write_wav_file_exceeds_unit :
    write_wav_file [-2, 1] = some [-2, 1] ∧
    ¬ ∀ y ∈ ([-2, 1] : List ℚ), -1 ≤ y ∧ y ≤ 1 := by
  constructor
  · have h1 : write_wav_file [-2, 1] = some [(-2 : ℚ) / 1, 1 / 1] := rfl
    rw [h1]; norm_num
  · intro h
    have := (h (-2) (by simp)).1
    linarith

/-- Claim C4 as amended: the signal is divided sample-wise by the buffer
maximum `np.max(signal)` (signed, not absolute); whenever that maximum is
positive, every sample of the written buffer is at most 1 (samples below −1
remain possible, see the counterexample). -/
theorem write_wav_file_peak (s : List ℚ) (m : ℚ) (hm : npmax s = some m)
    (hpos : 0 < m) :
    write_wav_file s = some (s.map fun v => v / m) ∧
    ∀ y ∈ s.map (fun v => v / m), y ≤ 1 := by
  constructor
  · unfold write_wav_file
    rw [hm]
    rfl
  · intro y hy
    rcases List.mem_map.mp hy with ⟨v, hv, rfl⟩
    have hvle : v ≤ m := by
      cases s with
      | nil => cases hv
      | cons a l =>
          have hme : m = l.foldl max a := (Option.some.inj hm).symm
          rw [hme]
          exact le_foldl_max l a v (by
            rcases List.mem_cons.mp hv with h | h
            exacts [Or.inl h, Or.inr h])
    exact (div_le_one hpos).mpr hvle

/-- Witness for C4 (amended) on the buffer `[3, 1]` with maximum 3. -/
theorem write_wav_file_peak_witness :
    npmax [(3 : ℚ), 1] = some 3 ∧ (0 : ℚ) < 3 ∧
    (write_wav_file [(3 : ℚ), 1] = some ([(3 : ℚ), 1].map fun v => v / 3) ∧
      ∀ y ∈ [(3 : ℚ), 1].map (fun v => v / 3), y ≤ 1) :=
  ⟨rfl, by decide, write_wav_file_peak [3, 1] 3 rfl (by decide)⟩

/-- Claim C5 counterexample: band count 0 is NOT rejected: `check_bands 0`
returns 0 (success), and for a negative band count `getfilts` returns the
empty filter list rather than failing (for 0 it is `getfilts` that raises,
by zero division). -/
theorem check_bands_zero_passes :
    check_bands 0 = 0 ∧ getfilts (-1) 8000 = some [] ∧ ¬ check_bands 0 = -1 :=
  ⟨rfl, rfl, by decide⟩

/-- Claim C5 as amended: `check_bands` returns the failure value −1 exactly
for negative band counts (0 passes validation); `getfilts 0 fs` raises
(`ZeroDivisionError` computing the step), and for negative `n` `getfilts`
returns the empty filter list without failing. -/
theorem check_bands_getfilts_spec (n : ℤ) (fs : ℤ) :
    (check_bands n = -1 ↔ n < 0) ∧ getfilts 0 fs = none ∧
    (n < 0 → getfilts n fs = some []) := by
  refine ⟨?_, rfl, ?_⟩
  · unfold check_bands
    by_cases h : n < 0
    · rw [if_pos h]
      exact ⟨fun _ => h, fun _ => rfl⟩
    · rw [if_neg h]
      exact ⟨fun h0 => absurd h0 (by decide), fun hlt => absurd hlt h⟩
  · intro h
    unfold getfilts
    rw [if_neg (by omega : ¬ n = 0), Int.toNat_of_nonpos h.le]
    rfl

/-- Witness for C5 (amended) at `n = -5`, `fs = 8000`. -/
theorem check_bands_getfilts_spec_witness :
    check_bands (-5) = -1 ∧ getfilts 0 8000 = none ∧ getfilts (-5) 8000 = some [] :=
  ⟨(check_bands_getfilts_spec (-5) 8000).1.mpr (by decide),
   (check_bands_getfilts_spec (-5) 8000).2.1,
   (check_bands_getfilts_spec (-5) 8000).2.2 (by decide)⟩

/-- Claim C3 counterexample: at `n = 3`, `fs = 8000` the claimed coverage
fails: `step = int(4000/3) = 1333`, the bands are `(1,1332)`, `(1333,2665)`,
`(2666,3998)`, and the last upper cutoff 3998 stops 2 Hz short of the
4000 Hz Nyquist frequency, a gap wider than 1 Hz, so the spec-side coverage
predicate is false. -/
theorem spec_band_coverage_fails :
    spec_band_coverage 3 8000 = false ∧
    getfilts 3 8000 = some [FilterSpec.bandpass 5 4 1 1332 8000,
      FilterSpec.bandpass 5 4 1333 2665 8000,
      FilterSpec.bandpass 5 4 2666 3998 8000] := by
  exact ⟨by decide, by decide⟩

/-- Claim C3 as amended: for `n >= 1` and `fs >= 0` with
`step = int((fs/2)/n)`, `getfilts` fails (scipy rejects band 0 cutoffs
`(1, step-1)` with `ValueError`) whenever `step <= 1` — the spec's
"sampleRate too low to support n bands (step < 2 Hz)" — and succeeds for
`step >= 2`, producing `n` band-pass designs with `lo_0 = 1`,
`lo_j = j*step`, `hi_j = (j+1)*step - 1` (so adjacent bands always leave
exactly a 1 Hz gap at shared boundaries and bands past the first have
equal width); the last upper cutoff is `n*step - 1`, and the bounds
`2*n*step <= fs < 2*n*step + 2*n` say its distance below Nyquist is at
least 1 Hz and less than `n + 1` Hz: coverage up to just under Nyquist
holds only when `2*n` divides `fs`. -/
theorem getfilts_band_structure (n fs : ℤ) (hn : 1 ≤ n) (hfs : 0 ≤ fs) :
    (Int.tdiv fs (2 * n) ≤ 1 → getfilts n fs = none) ∧
    (2 ≤ Int.tdiv fs (2 * n) →
      ∃ filts, getfilts n fs = some filts ∧
        filts.length = n.toNat ∧
        (∀ j, j < n.toNat →
          filts.get? j = some (FilterSpec.bandpass 5 4
            (if j = 0 then 1 else (j : ℤ) * Int.tdiv fs (2 * n))
            (((j : ℤ) + 1) * Int.tdiv fs (2 * n) - 1) fs)) ∧
        2 * n * Int.tdiv fs (2 * n) ≤ fs ∧
        fs < 2 * n * Int.tdiv fs (2 * n) + 2 * n) := by
  have hne : ¬ n = 0 := by omega
  have htd : Int.tdiv fs (2 * n) = fs / (2 * n) := Int.tdiv_eq_ediv hfs (by omega)
  have hdm := Int.ediv_add_emod fs (2 * n)
  have hr0 := Int.emod_nonneg fs (by omega : (2 * n) ≠ 0)
  have hrlt := Int.emod_lt_of_pos fs (by omega : (0 : ℤ) < 2 * n)
  have hub : 2 * n * Int.tdiv fs (2 * n) ≤ fs := by rw [htd]; omega
  have hlb : fs < 2 * n * Int.tdiv fs (2 * n) + 2 * n := by rw [htd]; omega
  constructor
  · intro hstep
    obtain ⟨k, hk⟩ : ∃ k, n.toNat = k + 1 := ⟨n.toNat - 1, by omega⟩
    unfold getfilts
    rw [if_neg hne, hk]
    have hc : cheby1_bandpass 5 4 1 ((0 + 1) * Int.tdiv fs (2 * n) - 1) fs = none := by
      unfold cheby1_bandpass
      rw [if_neg]
      rintro ⟨-, -, h3, -⟩
      omega
    simp only [getfiltsGo, hc]
  · intro hstep
    have hstep0 : (0 : ℤ) ≤ Int.tdiv fs (2 * n) := by omega
    have hval : ∀ j : ℕ, j < n.toNat →
        0 < (if j = 0 then (1 : ℤ) else ((0 : ℤ) + (j : ℤ)) * Int.tdiv fs (2 * n)) ∧
        2 * (if j = 0 then (1 : ℤ) else ((0 : ℤ) + (j : ℤ)) * Int.tdiv fs (2 * n)) < fs ∧
        0 < ((0 : ℤ) + (j : ℤ) + 1) * Int.tdiv fs (2 * n) - 1 ∧
        2 * (((0 : ℤ) + (j : ℤ) + 1) * Int.tdiv fs (2 * n) - 1) < fs := by
      intro j hj
      simp only [zero_add]
      have hjn : (j : ℤ) < n := by omega
      have hj0le : (0 : ℤ) ≤ (j : ℤ) := Int.natCast_nonneg j
      -- bridges between the product atoms, so the rest is linear arithmetic
      have hmono : ((j : ℤ) + 1) * Int.tdiv fs (2 * n) ≤ n * Int.tdiv fs (2 * n) :=
        mul_le_mul_of_nonneg_right (by omega) hstep0
      have hgrow : ((j : ℤ) + 1) * 2 ≤ ((j : ℤ) + 1) * Int.tdiv fs (2 * n) :=
        mul_le_mul_of_nonneg_left hstep (by omega)
      have hd2f : 2 * n * Int.tdiv fs (2 * n) = 2 * (n * Int.tdiv fs (2 * n)) := by
        ring
      have hsplit : (j : ℤ) * Int.tdiv fs (2 * n)
          = ((j : ℤ) + 1) * Int.tdiv fs (2 * n) - Int.tdiv fs (2 * n) := by
        ring
      have hone : Int.tdiv fs (2 * n) ≤ n * Int.tdiv fs (2 * n) := by
        have h := mul_le_mul_of_nonneg_right (show (1 : ℤ) ≤ n by omega) hstep0
        rwa [one_mul] at h
      refine ⟨?_, ?_, by omega, by omega⟩
      · by_cases hj0 : j = 0
        · rw [if_pos hj0]; omega
        · rw [if_neg hj0]
          have := mul_pos (show (0 : ℤ) < (j : ℤ) by omega)
            (show (0 : ℤ) < Int.tdiv fs (2 * n) by omega)
          omega
      · by_cases hj0 : j = 0
        · rw [if_pos hj0]; omega
        · rw [if_neg hj0]; omega
    obtain ⟨L, hL, hlen, hget⟩ := getfiltsGo_some (Int.tdiv fs (2 * n)) fs n.toNat 0 1 hval
    refine ⟨L, ?_, hlen, ?_, hub, hlb⟩
    · unfold getfilts
      rw [if_neg hne]
      exact hL
    · intro j hj
      rw [hget j hj]
      have e1 : ((0 : ℤ) + (j : ℤ)) * Int.tdiv fs (2 * n)
          = (j : ℤ) * Int.tdiv fs (2 * n) := by ring
      have e2 : ((0 : ℤ) + (j : ℤ) + 1) = ((j : ℤ) + 1) := by ring
      rw [e1, e2]

/-- Witness for C3 (amended): the failure side at `n = 3`, `fs = 10`
(`step = 1`) and the success side at `n = 4`, `fs = 8000` (`step = 1000`). -/
theorem getfilts_band_structure_witness :
    getfilts 3 10 = none ∧
    (∃ filts, getfilts 4 8000 = some filts ∧
      filts.length = (4 : ℤ).toNat ∧
      (∀ j, j < (4 : ℤ).toNat →
        filts.get? j = some (FilterSpec.bandpass 5 4
          (if j = 0 then 1 else (j : ℤ) * Int.tdiv 8000 (2 * 4))
          (((j : ℤ) + 1) * Int.tdiv 8000 (2 * 4) - 1) 8000)) ∧
      2 * 4 * Int.tdiv 8000 (2 * 4) ≤ 8000 ∧
      (8000 : ℤ) < 2 * 4 * Int.tdiv 8000 (2 * 4) + 2 * 4) :=
  ⟨(getfilts_band_structure 3 10 (by decide) (by decide)).1 (by decide),
   (getfilts_band_structure 4 8000 (by decide) (by decide)).2 (by decide)⟩

/-- Claim C2: the Reassembler of the source does reorder by the permutation
(`shuffle` gives `output[i] = bands[book[i]]`), but `bandunsplit` then
vertically stacks the reordered bands (`np.vstack`) instead of summing
them: on bands `[[1,2,3],[4,5,6]]` with permutation `[1,0]` the code yields
the 2-row stack `[[4,5,6],[1,2,3]]` (length 2, not a single length-3
waveform), while the spec-side summing combine yields `[5,7,9]`. -/
theorem reassembler_stacks_instead_of_summing :
    shuffle [[1, 2, 3], [4, 5, 6]] [1, 0] = some [[4, 5, 6], [1, 2, 3]] ∧
    bandunsplit [[4, 5, 6], [1, 2, 3]] = some [[4, 5, 6], [1, 2, 3]] ∧
    combine_spec [[1, 2, 3], [4, 5, 6]] [1, 0] = some [5, 7, 9] ∧
    ([[4, 5, 6], [1, 2, 3]] : List (List ℚ)).length = 2 := by
  refine ⟨by decide, by decide, ?_, rfl⟩
  have h : combine_spec [[1, 2, 3], [4, 5, 6]] [1, 0] = some [4 + 1, 5 + 2, 6 + 3] := rfl
  rw [h]
  norm_num

/-- Claim C8 counterexample: an empty signal IS an error: the scramble
pass produces an empty scrambled buffer and `write_wav_file` raises
`ValueError` in `np.max` on it (modelled: completion flag `false`), before
any output is written (`[]`), so the run does not complete. -/
theorem scrambler_empty_signal_raises :
    scrambler dspId 0 8000 0 0 ([] : List ℚ) ([] : List ℚ) 0 1 false = ([], false) := rfl

/-- Claim C8 as amended: for band count 1, a NON-empty signal (with the
time vector of matching length, as `read_wav_file` constructs it), and a
sample rate accepted by the 2632 Hz low-pass design (scipy requires
`2632 < Fs/2`, i.e. `Fs > 5264`), the scrambler takes the no-split fast
path, applies carrier inversion exactly once per pass to the single
DC-removed band, writes both buffers and completes without raising; on an
empty signal it instead raises in `write_wav_file` (see the
counterexample), and at lower sample rates `cheby1` raises in
`generate_lpfilters`. -/
theorem scrambler_single_band_completes (P : Dsp) (Fs : ℤ) (Ts dur rate : ℚ)
    (x t : List ℚ) (debug : Bool) (hx : x ≠ []) (ht : t.length = x.length)
    (hFs : 2 * 2632 < Fs) :
    ∃ sb db,
      write_wav_file
        (invert P (remove_dc x) (carrier P ((2632 : ℤ) : ℚ) t)
          (FilterSpec.lowpass 5 4 2632 Fs)) = some sb ∧
      write_wav_file
        (invert P (remove_dc
            (invert P (remove_dc x) (carrier P ((2632 : ℤ) : ℚ) t)
              (FilterSpec.lowpass 5 4 2632 Fs)))
          (carrier P ((2632 : ℤ) : ℚ) t) (FilterSpec.lowpass 5 4 2632 Fs)) = some db ∧
      scrambler P 0 Fs Ts dur x t rate 1 debug = ([sb, db], true) := by
  have hxlen : 0 < x.length := List.length_pos.mpr hx
  have hscrlen :
      (invert P (remove_dc x) (carrier P ((2632 : ℤ) : ℚ) t)
        (FilterSpec.lowpass 5 4 2632 Fs)).length = x.length := by
    rw [invert_length, remove_dc_length, carrier_length, ht, min_self]
  have hscrne :
      invert P (remove_dc x) (carrier P ((2632 : ℤ) : ℚ) t)
        (FilterSpec.lowpass 5 4 2632 Fs) ≠ [] :=
    List.length_pos.mp (by rw [hscrlen]; exact hxlen)
  obtain ⟨sb, hsb⟩ := write_wav_file_of_ne_nil _ hscrne
  have hdlen :
      (invert P (remove_dc
          (invert P (remove_dc x) (carrier P ((2632 : ℤ) : ℚ) t)
            (FilterSpec.lowpass 5 4 2632 Fs)))
        (carrier P ((2632 : ℤ) : ℚ) t) (FilterSpec.lowpass 5 4 2632 Fs)).length
        = x.length := by
    rw [invert_length, remove_dc_length, hscrlen, carrier_length, ht, min_self]
  have hdne :
      invert P (remove_dc
          (invert P (remove_dc x) (carrier P ((2632 : ℤ) : ℚ) t)
            (FilterSpec.lowpass 5 4 2632 Fs)))
        (carrier P ((2632 : ℤ) : ℚ) t) (FilterSpec.lowpass 5 4 2632 Fs) ≠ [] :=
    List.length_pos.mp (by rw [hdlen]; exact hxlen)
  obtain ⟨db, hdb⟩ := write_wav_file_of_ne_nil _ hdne
  refine ⟨sb, db, hsb, hdb, ?_⟩
  have hp1 := fun (y : List ℚ) => scrambler_pass_one P y t Fs hFs
  rw [scrambler_eq P 0 Fs Ts dur x t rate 1 debug (by decide)]
  simp only [hp1, hsb, hdb]

/-- Witness for C8 (amended) on the two-sample signal `[1, 2]` with time
vector `[0, 1]`, sample rate 8000 and the concrete primitives `dspId`. -/
theorem scrambler_single_band_completes_witness :
    ([(1 : ℚ), 2] ≠ ([] : List ℚ)) ∧ (2 * 2632 : ℤ) < 8000 ∧
    (∃ sb db,
      write_wav_file
        (invert dspId (remove_dc [(1 : ℚ), 2])
          (carrier dspId ((2632 : ℤ) : ℚ) [(0 : ℚ), 1])
          (FilterSpec.lowpass 5 4 2632 8000)) = some sb ∧
      write_wav_file
        (invert dspId (remove_dc
            (invert dspId (remove_dc [(1 : ℚ), 2])
              (carrier dspId ((2632 : ℤ) : ℚ) [(0 : ℚ), 1])
              (FilterSpec.lowpass 5 4 2632 8000)))
          (carrier dspId ((2632 : ℤ) : ℚ) [(0 : ℚ), 1])
          (FilterSpec.lowpass 5 4 2632 8000)) = some db ∧
      scrambler dspId 0 8000 0 0 [(1 : ℚ), 2] [(0 : ℚ), 1] 0 1 false = ([sb, db], true)) :=
  ⟨by decide, by decide,
   scrambler_single_band_completes dspId 8000 0 0 0 [(1 : ℚ), 2] [(0 : ℚ), 1] false
     (by decide) rfl (by decide)⟩

/-- Claim C9: the scrambler output is identical for modes 0, 1 and 2 on
every fixed input: the three mode branches of the time-segmentation step
are all `pass` and mode is otherwise only used for a debug label, so the
written buffers do not depend on it. -/
theorem scrambler_mode_independent (P : Dsp) (Fs : ℤ) (Ts dur rate : ℚ)
    (x t : List ℚ) (bands : ℤ) (debug : Bool) :
    scrambler P 0 Fs Ts dur x t rate bands debug =
      scrambler P 1 Fs Ts dur x t rate bands debug ∧
    scrambler P 1 Fs Ts dur x t rate bands debug =
      scrambler P 2 Fs Ts dur x t rate bands debug :=
  ⟨rfl, rfl⟩

/-- Claim C10: for every band count above 1 the scrambler writes nothing
and fails: the band-split path reaches `spectrum`, whose body names the
undefined `lb` (`NameError`), so the run dies before the first
`write_wav_file` call — for any mode and any input. -/
theorem scrambler_multiband_fails (P : Dsp) (mode : ℤ) (Fs : ℤ) (Ts dur rate : ℚ)
    (x t : List ℚ) (bands : ℤ) (debug : Bool) (hb : 1 < bands) :
    scrambler P mode Fs Ts dur x t rate bands debug = ([], false) := by
  have hp : scrambler_pass P x t Fs bands = none := by
    simp [scrambler_pass, hb, bandsplit_none]
  by_cases hm : mode < 0 ∨ 2 < mode
  · unfold scrambler
    rw [if_pos hm]
  · rw [scrambler_eq P mode Fs Ts dur x t rate bands debug hm, hp]

/-- Witness for C10 at band count 2 on a one-sample signal. -/
theorem scrambler_multiband_fails_witness :
    (1 : ℤ) < 2 ∧
    scrambler dspId 0 8000 0 0 [(1 : ℚ)] [(0 : ℚ)] 0 2 false = ([], false) :=
  ⟨by decide, scrambler_multiband_fails dspId 0 8000 0 0 0 [(1 : ℚ)] [(0 : ℚ)] 2 false (by decide)⟩

end VoiceScrambler
